import Mathlib

/-!
Shallow embedding of `src/Design/sim/itch_parser.py`: the ITCH type
registry (`MSG_CHAR_TO_TYPE`, `MSG_LENGTHS`), the byte-at-a-time frame
assembler (`feed_byte`, `parse_message`), the fixed-offset field decoder
(`_decode_message`) and the per-kind message generators (`gen_*`).

Python byte strings are modelled as `List Nat` (each entry one byte),
Python unbounded non-negative ints as `Nat`.
-/

namespace ITCH

/-- The `MessageType` IntEnum of the source. -/
inductive MessageType where
  | ADD_ORDER
  | CANCEL_ORDER
  | DELETE_ORDER
  | EXECUTED_ORDER
  | REPLACE_ORDER
  | TRADE
  | ADD_ORDER_MPID
  | EXECUTED_PRICE
  | BROKEN_TRADE
  deriving DecidableEq, Fintype

/-- The integer value of each IntEnum member. -/
def MessageType.val : MessageType → Nat
  | .ADD_ORDER => 0
  | .CANCEL_ORDER => 1
  | .DELETE_ORDER => 2
  | .EXECUTED_ORDER => 3
  | .REPLACE_ORDER => 4
  | .TRADE => 5
  | .ADD_ORDER_MPID => 6
  | .EXECUTED_PRICE => 7
  | .BROKEN_TRADE => 8

/-- The `MSG_CHAR_TO_TYPE` dict, as the lookup it is used for:
tag byte to message type. The keys are the ASCII codes of
A, X, D, E, U, P, F, C, B. -/
def MSG_CHAR_TO_TYPE (b : Nat) : Option MessageType :=
  if b = 65 then some .ADD_ORDER
  else if b = 88 then some .CANCEL_ORDER
  else if b = 68 then some .DELETE_ORDER
  else if b = 69 then some .EXECUTED_ORDER
  else if b = 85 then some .REPLACE_ORDER
  else if b = 80 then some .TRADE
  else if b = 70 then some .ADD_ORDER_MPID
  else if b = 67 then some .EXECUTED_PRICE
  else if b = 66 then some .BROKEN_TRADE
  else none

/-- The `MSG_LENGTHS` dict: total frame length in bytes, tag included. -/
def MSG_LENGTHS : MessageType → Nat
  | .ADD_ORDER => 36
  | .CANCEL_ORDER => 23
  | .DELETE_ORDER => 9
  | .EXECUTED_ORDER => 30
  | .REPLACE_ORDER => 27
  | .TRADE => 40
  | .ADD_ORDER_MPID => 40
  | .EXECUTED_PRICE => 36
  | .BROKEN_TRADE => 19

/-- The tag byte bound to each kind (the key of `MSG_CHAR_TO_TYPE`
whose value is that kind). -/
def tagOf : MessageType → Nat
  | .ADD_ORDER => 65
  | .CANCEL_ORDER => 88
  | .DELETE_ORDER => 68
  | .EXECUTED_ORDER => 69
  | .REPLACE_ORDER => 85
  | .TRADE => 80
  | .ADD_ORDER_MPID => 70
  | .EXECUTED_PRICE => 67
  | .BROKEN_TRADE => 66

/-- The `ParsedMessage` dataclass with its field defaults.
`msg_type` carries `MessageType.val`; `side` is 0 = Buy, 1 = Sell. -/
structure ParsedMessage where
  valid : Bool := false
  msg_type : Nat := 0
  order_ref : Nat := 0
  side : Nat := 0
  shares : Nat := 0
  price : Nat := 0
  new_order_ref : Nat := 0
  timestamp : Nat := 0
  misc_data : Nat := 0
  deriving DecidableEq

/-- `ParsedMessage()` / `ParsedMessage(valid=False)`: the all-default record. -/
def noMsg : ParsedMessage := {}

/-- Python `int.from_bytes(l, 'big')`. -/
def from_bytes (l : List Nat) : Nat := l.foldl (fun acc b => acc * 256 + b) 0

/-- Python slice `buf[lo:hi]` (on lists of bytes). -/
def pySlice (buf : List Nat) (lo hi : Nat) : List Nat := (buf.drop lo).take (hi - lo)

/-- `int.from_bytes(buf[lo:hi], 'big')`. -/
def sliceBE (buf : List Nat) (lo hi : Nat) : Nat := from_bytes (pySlice buf lo hi)

/-- Python `buf[i]` on a buffer known to be long enough (the decoder is
only ever called on frames of exactly the registered length). -/
def byteAt (buf : List Nat) (i : Nat) : Nat := buf.getD i 0

/-- `ITCHParser._decode_message`, as a function of the detected message
type and the accumulated buffer. -/
def decode_message (mt : MessageType) (buf : List Nat) : ParsedMessage :=
  let msg : ParsedMessage := { valid := true, msg_type := mt.val }
  match mt with
  | .DELETE_ORDER =>
      { msg with order_ref := sliceBE buf 1 9 }
  | .ADD_ORDER =>
      { msg with
        timestamp := sliceBE buf 1 7
        order_ref := sliceBE buf 7 15
        side := if byteAt buf 15 = 83 then 1 else 0
        shares := sliceBE buf 16 20
        misc_data := sliceBE buf 20 28
        price := sliceBE buf 28 32 }
  | .CANCEL_ORDER =>
      { msg with
        timestamp := sliceBE buf 1 7
        order_ref := sliceBE buf 7 15
        shares := sliceBE buf 15 19 }
  | .EXECUTED_ORDER =>
      { msg with
        timestamp := sliceBE buf 1 7
        order_ref := sliceBE buf 7 15
        shares := sliceBE buf 15 19
        misc_data := sliceBE buf 19 27 }
  | .REPLACE_ORDER =>
      { msg with
        timestamp := sliceBE buf 1 7
        order_ref := sliceBE buf 7 15
        new_order_ref := sliceBE buf 15 23
        shares := sliceBE buf 23 27 }
  | .TRADE =>
      { msg with
        timestamp := sliceBE buf 1 7
        order_ref := sliceBE buf 7 15
        side := if byteAt buf 15 = 83 then 1 else 0
        shares := sliceBE buf 16 20
        price := sliceBE buf 28 32
        misc_data := sliceBE buf 32 40 }
  | .ADD_ORDER_MPID =>
      { msg with
        timestamp := sliceBE buf 1 7
        order_ref := sliceBE buf 7 15
        side := if byteAt buf 15 = 83 then 1 else 0
        shares := sliceBE buf 16 20
        misc_data := sliceBE buf 20 28
        price := sliceBE buf 28 32 }
  | .EXECUTED_PRICE =>
      { msg with
        timestamp := sliceBE buf 1 7
        order_ref := sliceBE buf 7 15
        shares := sliceBE buf 15 19
        misc_data := sliceBE buf 19 27
        price := sliceBE buf 28 32 }
  | .BROKEN_TRADE =>
      { msg with
        timestamp := sliceBE buf 1 7
        misc_data := sliceBE buf 7 15 }

/-- The mutable fields of `ITCHParser` (the dead write-only `_result`
field is omitted: it is assigned in `reset` and never read). -/
structure ParserState where
  byte_index : Nat
  msg_type : Option MessageType
  msg_length : Nat
  buffer : List Nat
  deriving DecidableEq

/-- `ITCHParser.reset` / the state right after `__init__`. -/
def initState : ParserState :=
  { byte_index := 0, msg_type := none, msg_length := 0, buffer := [] }

/-- `_decode_message` as invoked on the parser state: the Python code
reads `self.msg_type`, which is `None` only in states unreachable from
`reset` (there `ParsedMessage(valid=True, msg_type=None)` would be
built; we keep the default 0 in that dead branch). -/
def decode_opt : Option MessageType → List Nat → ParsedMessage
  | some mt, buf => decode_message mt buf
  | none, _ => { valid := true }

/-- `ITCHParser.feed_byte`: returns the successor state and the returned
`ParsedMessage`. -/
def feed_byte (s : ParserState) (b : Nat) : ParserState × ParsedMessage :=
  if s.byte_index = 0 then
    match MSG_CHAR_TO_TYPE b with
    | some mt =>
        let s2 : ParserState :=
          { byte_index := s.byte_index + 1, msg_type := some mt
            msg_length := MSG_LENGTHS mt, buffer := [b] }
        if s2.msg_length ≤ s2.byte_index then (initState, decode_opt s2.msg_type s2.buffer)
        else (s2, noMsg)
    | none => (initState, noMsg)
  else
    let s2 : ParserState :=
      { byte_index := s.byte_index + 1, msg_type := s.msg_type
        msg_length := s.msg_length, buffer := s.buffer ++ [b] }
    if s2.msg_length ≤ s2.byte_index then (initState, decode_opt s2.msg_type s2.buffer)
    else (s2, noMsg)

/-- The loop body of `ITCHParser.parse_message`: feed the bytes in
order, return the first valid result, else an invalid one. -/
def parse_loop (s : ParserState) : List Nat → ParsedMessage
  | [] => noMsg
  | b :: rest =>
      let p := feed_byte s b
      if p.2.valid then p.2 else parse_loop p.1 rest

/-- `ITCHParser.parse_message`: resets, then runs the feed loop. -/
def parse_message (data : List Nat) : ParsedMessage := parse_loop initState data

/-- The stream of results returned by successive `feed_byte` calls
starting from a given state (one result per input byte). -/
def feed_results (s : ParserState) : List Nat → List ParsedMessage
  | [] => []
  | b :: rest =>
      let p := feed_byte s b
      p.2 :: feed_results p.1 rest

/-- Python `n.to_bytes(k, 'big')`.  Total where Python raises
`OverflowError` for `n ≥ 256 ^ k`; every use below is guarded by that
bound, under which the two agree. -/
def to_bytes (n : Nat) : Nat → List Nat
  | 0 => []
  | k + 1 => to_bytes (n / 256) k ++ [n % 256]

/-- Python `s.ljust(w)[:w]` on byte strings (pad is the space byte 32). -/
def ljust_trunc (s : List Nat) (w : Nat) : List Nat :=
  (s ++ List.replicate (w - s.length) 32).take w

/-- The side byte written by the generators:
`ord('S') if side == 'S' else ord('B')`. -/
def side_byte (side : String) : Nat := if side = "S" then 83 else 66

/-- `gen_delete_order`. -/
def gen_delete_order (order_ref : Nat) : List Nat :=
  [68] ++ to_bytes order_ref 8

/-- `gen_add_order` (stock is the byte string of the Python `str`). -/
def gen_add_order (timestamp order_ref : Nat) (side : String)
    (shares : Nat) (stock : List Nat) (price : Nat) : List Nat :=
  [65] ++ to_bytes timestamp 6 ++ to_bytes order_ref 8 ++ [side_byte side] ++
    to_bytes shares 4 ++ ljust_trunc stock 8 ++ to_bytes price 4 ++
    List.replicate 4 0

/-- `gen_cancel_order`. -/
def gen_cancel_order (timestamp order_ref canceled_shares : Nat) : List Nat :=
  [88] ++ to_bytes timestamp 6 ++ to_bytes order_ref 8 ++
    to_bytes canceled_shares 4 ++ List.replicate 4 0

/-- `gen_executed_order`. -/
def gen_executed_order (timestamp order_ref executed_shares match_id : Nat) :
    List Nat :=
  [69] ++ to_bytes timestamp 6 ++ to_bytes order_ref 8 ++
    to_bytes executed_shares 4 ++ to_bytes match_id 8 ++ List.replicate 3 0

/-- `gen_replace_order`. -/
def gen_replace_order (timestamp old_order_ref new_order_ref shares : Nat) :
    List Nat :=
  [85] ++ to_bytes timestamp 6 ++ to_bytes old_order_ref 8 ++
    to_bytes new_order_ref 8 ++ to_bytes shares 4

/-- `gen_trade`. -/
def gen_trade (timestamp order_ref : Nat) (side : String)
    (shares : Nat) (stock : List Nat) (price match_id : Nat) : List Nat :=
  [80] ++ to_bytes timestamp 6 ++ to_bytes order_ref 8 ++ [side_byte side] ++
    to_bytes shares 4 ++ ljust_trunc stock 8 ++ to_bytes price 4 ++
    to_bytes match_id 8

/-- `gen_add_order_mpid`. -/
def gen_add_order_mpid (timestamp order_ref : Nat) (side : String)
    (shares : Nat) (stock : List Nat) (price : Nat) (mpid : List Nat) :
    List Nat :=
  [70] ++ to_bytes timestamp 6 ++ to_bytes order_ref 8 ++ [side_byte side] ++
    to_bytes shares 4 ++ ljust_trunc stock 8 ++ to_bytes price 4 ++
    ljust_trunc mpid 4 ++ List.replicate 4 0

/-- `gen_executed_price`. -/
def gen_executed_price (timestamp order_ref executed_shares match_id : Nat)
    (printable : Bool) (exec_price : Nat) : List Nat :=
  [67] ++ to_bytes timestamp 6 ++ to_bytes order_ref 8 ++
    to_bytes executed_shares 4 ++ to_bytes match_id 8 ++
    [if printable then 89 else 78] ++ to_bytes exec_price 4 ++
    List.replicate 4 0

/-- `gen_broken_trade`. -/
def gen_broken_trade (timestamp match_id : Nat) : List Nat :=
  [66] ++ to_bytes timestamp 6 ++ to_bytes match_id 8 ++ List.replicate 4 0

/-! ## Infrastructure lemmas -/

theorem noMsg_valid : noMsg.valid = false := rfl

theorem to_bytes_length (n k : Nat) : (to_bytes n k).length = k := by
  induction k generalizing n with
  | zero => rfl
  | succ k ih => simp [to_bytes, ih]

theorem ljust_trunc_length (s : List Nat) (w : Nat) :
    (ljust_trunc s w).length = w := by
  simp [ljust_trunc]
  omega

theorem from_bytes_nil : from_bytes [] = 0 := rfl

theorem from_bytes_aux (l : List Nat) (acc : Nat) :
    l.foldl (fun acc b => acc * 256 + b) acc =
      acc * 256 ^ l.length + from_bytes l := by
  induction l generalizing acc with
  | nil => simp [from_bytes]
  | cons b t ih =>
      show List.foldl _ (acc * 256 + b) t = _
      rw [ih]
      have h2 : from_bytes (b :: t) = b * 256 ^ t.length + from_bytes t := by
        show List.foldl _ (0 * 256 + b) t = _
        rw [ih]
        ring_nf
      rw [h2, List.length_cons]
      ring

theorem from_bytes_append (a b : List Nat) :
    from_bytes (a ++ b) = from_bytes a * 256 ^ b.length + from_bytes b := by
  show List.foldl _ 0 (a ++ b) = _
  rw [List.foldl_append, from_bytes_aux]
  rfl

theorem from_bytes_to_bytes (n k : Nat) :
    from_bytes (to_bytes n k) = n % 256 ^ k := by
  induction k generalizing n with
  | zero => simp [to_bytes, from_bytes, Nat.mod_one]
  | succ k ih =>
      rw [to_bytes, from_bytes_append, ih]
      have h1 : from_bytes [n % 256] = n % 256 := by
        simp [from_bytes]
      rw [h1]
      have h2 : (256 : Nat) ^ (k + 1) = 256 * 256 ^ k := by ring
      rw [h2, Nat.mod_mul]
      simp
      ring

theorem from_bytes_to_bytes_lt (n k : Nat) (h : n < 256 ^ k) :
    from_bytes (to_bytes n k) = n := by
  rw [from_bytes_to_bytes, Nat.mod_eq_of_lt h]

theorem drop_append_ge (a b : List Nat) (n : Nat) (h : a.length ≤ n) :
    (a ++ b).drop n = b.drop (n - a.length) := by
  rw [List.drop_append_eq_append_drop, List.drop_eq_nil_of_le h, List.nil_append]

theorem take_append_le (a b : List Nat) (n : Nat) (h : n ≤ a.length) :
    (a ++ b).take n = a.take n := by
  rw [List.take_append_eq_append_take, Nat.sub_eq_zero_of_le h, List.take_zero,
    List.append_nil]

theorem pySlice_append_skip (a b : List Nat) (lo hi : Nat) (h : a.length ≤ lo) :
    pySlice (a ++ b) lo hi = pySlice b (lo - a.length) (hi - a.length) := by
  unfold pySlice
  rw [drop_append_ge a b lo h]
  congr 1
  omega

theorem pySlice_self (a : List Nat) (hi : Nat) (h : a.length ≤ hi) :
    pySlice a 0 hi = a := by
  unfold pySlice
  rw [List.drop_zero, Nat.sub_zero, List.take_of_length_le h]

theorem pySlice_append_here (a b : List Nat) (hi : Nat) (h : a.length = hi) :
    pySlice (a ++ b) 0 hi = a := by
  unfold pySlice
  rw [List.drop_zero, Nat.sub_zero, take_append_le a b hi (le_of_eq h.symm),
    ← h, List.take_length]

theorem byteAt_append_skip (a b : List Nat) (i : Nat) (h : a.length ≤ i) :
    byteAt (a ++ b) i = byteAt b (i - a.length) := by
  unfold byteAt
  rw [List.getD_append_right _ _ _ _ h]

theorem byteAt_cons_zero (x : Nat) (l : List Nat) : byteAt (x :: l) 0 = x := rfl

theorem pySlice_cons_skip (x : Nat) (l : List Nat) (lo hi : Nat) (h : 1 ≤ lo) :
    pySlice (x :: l) lo hi = pySlice l (lo - 1) (hi - 1) := by
  have := pySlice_append_skip [x] l lo hi (by simpa using h)
  simpa using this

theorem byteAt_cons_skip (x : Nat) (l : List Nat) (i : Nat) (h : 1 ≤ i) :
    byteAt (x :: l) i = byteAt l (i - 1) := by
  have := byteAt_append_skip [x] l i (by simpa using h)
  simpa using this

/-! ## Frame machinery -/

theorem decode_valid (mt : MessageType) (buf : List Nat) :
    (decode_message mt buf).valid = true := by
  cases mt <;> rfl

theorem msg_lengths_ge (mt : MessageType) : 9 ≤ MSG_LENGTHS mt := by
  cases mt <;> decide

/-- Running the feed loop down a partially accumulated frame completes
it and decodes the full buffer. -/
theorem parse_loop_frame : ∀ (rest acc : List Nat) (mt : MessageType) (L : Nat),
    1 ≤ acc.length → acc.length + rest.length = L → rest ≠ [] →
    parse_loop
      { byte_index := acc.length, msg_type := some mt, msg_length := L,
        buffer := acc } rest
      = decode_message mt (acc ++ rest) := by
  intro rest
  induction rest with
  | nil => intro acc mt L _ _ h3; exact absurd rfl h3
  | cons b rest ih =>
      intro acc mt L h1 h2 _
      have hne : acc.length ≠ 0 := by omega
      rw [parse_loop]
      by_cases hc : L ≤ acc.length + 1
      · have hrest : rest = [] := by
          have : rest.length = 0 := by simp at h2; omega
          exact List.length_eq_zero.mp this
        subst hrest
        simp [feed_byte, hne, hc, decode_opt, decode_valid]
      · have hrne : rest ≠ [] := by
          have : 0 < rest.length := by simp at h2; omega
          exact List.length_pos.mp this
        have step : feed_byte
            { byte_index := acc.length, msg_type := some mt, msg_length := L,
              buffer := acc } b =
            ({ byte_index := acc.length + 1, msg_type := some mt,
               msg_length := L, buffer := acc ++ [b] }, noMsg) := by
          simp [feed_byte, hne, hc]
        rw [step]
        simp only [noMsg_valid, Bool.false_eq_true, if_false]
        have hlen : (acc ++ [b]).length = acc.length + 1 := by simp
        have := ih (acc ++ [b]) mt L (by omega) (by simp at h2 ⊢; omega) hrne
        rw [hlen] at this
        rw [this, List.append_assoc]
        rfl

/-- `parse_message` on a single exact-length frame decodes that frame. -/
theorem parse_message_frame (t : Nat) (mt : MessageType) (rest : List Nat)
    (ht : MSG_CHAR_TO_TYPE t = some mt)
    (hlen : 1 + rest.length = MSG_LENGTHS mt) :
    parse_message (t :: rest) = decode_message mt (t :: rest) := by
  have h9 := msg_lengths_ge mt
  have hnc : ¬ (MSG_LENGTHS mt ≤ 0 + 1) := by omega
  rw [parse_message, parse_loop]
  have step : feed_byte initState t =
      ({ byte_index := 1, msg_type := some mt, msg_length := MSG_LENGTHS mt,
         buffer := [t] }, noMsg) := by
    simp [feed_byte, initState, ht, hnc]
  rw [step]
  simp only [noMsg_valid, Bool.false_eq_true, if_false]
  have hrne : rest ≠ [] := by
    have : 0 < rest.length := by omega
    exact List.length_pos.mp this
  have := parse_loop_frame rest [t] mt (MSG_LENGTHS mt) (by simp)
    (by simp; omega) hrne
  simp only [List.length_cons, List.length_nil] at this
  rw [this]
  rfl

/-- `parse_message_frame` restated on the `[t] ++ rest` form the
generators produce. -/
theorem parse_message_frame' (t : Nat) (mt : MessageType) (rest : List Nat)
    (ht : MSG_CHAR_TO_TYPE t = some mt)
    (hlen : 1 + rest.length = MSG_LENGTHS mt) :
    parse_message ([t] ++ rest) = decode_message mt ([t] ++ rest) :=
  parse_message_frame t mt rest ht hlen

/-- Encoding then decoding the side marker is the identity on
the Buy/Sell distinction. -/
theorem side_byte_eq (side : String) :
    (if side_byte side = 83 then (1 : Nat) else 0) =
      (if side = "S" then (1 : Nat) else 0) := by
  unfold side_byte
  by_cases h : side = "S" <;> simp [h]

/-! ## Per-kind encode/decode round trips -/

theorem roundtrip_delete_order (oref : Nat) (h : oref < 2 ^ 64) :
    parse_message (gen_delete_order oref) =
      { valid := true, msg_type := 2, order_ref := oref } := by
  have h8 : oref < 256 ^ 8 := lt_of_lt_of_le h (by norm_num)
  have hframe : parse_message ([68] ++ to_bytes oref 8) =
      decode_message .DELETE_ORDER ([68] ++ to_bytes oref 8) :=
    parse_message_frame 68 .DELETE_ORDER (to_bytes oref 8) (by decide)
      (by simp [to_bytes_length, MSG_LENGTHS])
  rw [gen_delete_order, hframe]
  simp [decode_message, MessageType.val, sliceBE,
    pySlice_append_skip, pySlice_cons_skip, pySlice_self, to_bytes_length,
    from_bytes_to_bytes_lt _ _ h8]

theorem roundtrip_add_order (ts oref : Nat) (side : String) (sh : Nat)
    (stock : List Nat) (pr : Nat)
    (hts : ts < 2 ^ 48) (ho : oref < 2 ^ 64) (hside : side = "B" ∨ side = "S")
    (hsh : sh < 2 ^ 32) (hpr : pr < 2 ^ 32) (hstock : ∀ b ∈ stock, b < 128) :
    parse_message (gen_add_order ts oref side sh stock pr) =
      { valid := true, msg_type := 0, timestamp := ts, order_ref := oref,
        side := if side = "S" then 1 else 0, shares := sh,
        misc_data := from_bytes (ljust_trunc stock 8), price := pr } := by
  have h6 : ts < 256 ^ 6 := lt_of_lt_of_le hts (by norm_num)
  have h8 : oref < 256 ^ 8 := lt_of_lt_of_le ho (by norm_num)
  have h4 : sh < 256 ^ 4 := lt_of_lt_of_le hsh (by norm_num)
  have h4p : pr < 256 ^ 4 := lt_of_lt_of_le hpr (by norm_num)
  rw [gen_add_order]
  simp only [List.append_assoc]
  rw [parse_message_frame' 65 MessageType.ADD_ORDER]
  · simp [decode_message, MessageType.val, sliceBE, byteAt_cons_skip,
      byteAt_append_skip, byteAt_cons_zero, pySlice_append_skip,
      pySlice_cons_skip, pySlice_append_here, pySlice_self, to_bytes_length,
      ljust_trunc_length, side_byte_eq,
      from_bytes_to_bytes_lt _ _ h6, from_bytes_to_bytes_lt _ _ h8,
      from_bytes_to_bytes_lt _ _ h4, from_bytes_to_bytes_lt _ _ h4p]
  · decide
  · simp [to_bytes_length, ljust_trunc_length, MSG_LENGTHS]

theorem roundtrip_cancel_order (ts oref sh : Nat)
    (hts : ts < 2 ^ 48) (ho : oref < 2 ^ 64) (hsh : sh < 2 ^ 32) :
    parse_message (gen_cancel_order ts oref sh) =
      { valid := true, msg_type := 1, timestamp := ts, order_ref := oref,
        shares := sh } := by
  have h6 : ts < 256 ^ 6 := lt_of_lt_of_le hts (by norm_num)
  have h8 : oref < 256 ^ 8 := lt_of_lt_of_le ho (by norm_num)
  have h4 : sh < 256 ^ 4 := lt_of_lt_of_le hsh (by norm_num)
  rw [gen_cancel_order]
  simp only [List.append_assoc]
  rw [parse_message_frame' 88 MessageType.CANCEL_ORDER]
  · simp [decode_message, MessageType.val, sliceBE, pySlice_append_skip,
      pySlice_cons_skip, pySlice_append_here, pySlice_self, to_bytes_length,
      from_bytes_to_bytes_lt _ _ h6, from_bytes_to_bytes_lt _ _ h8,
      from_bytes_to_bytes_lt _ _ h4]
  · decide
  · simp [to_bytes_length, MSG_LENGTHS]

theorem roundtrip_executed_order (ts oref sh mid : Nat)
    (hts : ts < 2 ^ 48) (ho : oref < 2 ^ 64) (hsh : sh < 2 ^ 32)
    (hm : mid < 2 ^ 64) :
    parse_message (gen_executed_order ts oref sh mid) =
      { valid := true, msg_type := 3, timestamp := ts, order_ref := oref,
        shares := sh, misc_data := mid } := by
  have h6 : ts < 256 ^ 6 := lt_of_lt_of_le hts (by norm_num)
  have h8 : oref < 256 ^ 8 := lt_of_lt_of_le ho (by norm_num)
  have h4 : sh < 256 ^ 4 := lt_of_lt_of_le hsh (by norm_num)
  have h8m : mid < 256 ^ 8 := lt_of_lt_of_le hm (by norm_num)
  rw [gen_executed_order]
  simp only [List.append_assoc]
  rw [parse_message_frame' 69 MessageType.EXECUTED_ORDER]
  · simp [decode_message, MessageType.val, sliceBE, pySlice_append_skip,
      pySlice_cons_skip, pySlice_append_here, pySlice_self, to_bytes_length,
      from_bytes_to_bytes_lt _ _ h6, from_bytes_to_bytes_lt _ _ h8,
      from_bytes_to_bytes_lt _ _ h4, from_bytes_to_bytes_lt _ _ h8m]
  · decide
  · simp [to_bytes_length, MSG_LENGTHS]

theorem roundtrip_replace_order (ts oref noref sh : Nat)
    (hts : ts < 2 ^ 48) (ho : oref < 2 ^ 64) (hn : noref < 2 ^ 64)
    (hsh : sh < 2 ^ 32) :
    parse_message (gen_replace_order ts oref noref sh) =
      { valid := true, msg_type := 4, timestamp := ts, order_ref := oref,
        new_order_ref := noref, shares := sh } := by
  have h6 : ts < 256 ^ 6 := lt_of_lt_of_le hts (by norm_num)
  have h8 : oref < 256 ^ 8 := lt_of_lt_of_le ho (by norm_num)
  have h8n : noref < 256 ^ 8 := lt_of_lt_of_le hn (by norm_num)
  have h4 : sh < 256 ^ 4 := lt_of_lt_of_le hsh (by norm_num)
  rw [gen_replace_order]
  simp only [List.append_assoc]
  rw [parse_message_frame' 85 MessageType.REPLACE_ORDER]
  · simp [decode_message, MessageType.val, sliceBE, pySlice_append_skip,
      pySlice_cons_skip, pySlice_append_here, pySlice_self, to_bytes_length,
      from_bytes_to_bytes_lt _ _ h6, from_bytes_to_bytes_lt _ _ h8,
      from_bytes_to_bytes_lt _ _ h8n, from_bytes_to_bytes_lt _ _ h4]
  · decide
  · simp [to_bytes_length, MSG_LENGTHS]

theorem roundtrip_trade (ts oref : Nat) (side : String) (sh : Nat)
    (stock : List Nat) (pr mid : Nat)
    (hts : ts < 2 ^ 48) (ho : oref < 2 ^ 64) (hside : side = "B" ∨ side = "S")
    (hsh : sh < 2 ^ 32) (hpr : pr < 2 ^ 32) (hm : mid < 2 ^ 64)
    (hstock : ∀ b ∈ stock, b < 128) :
    parse_message (gen_trade ts oref side sh stock pr mid) =
      { valid := true, msg_type := 5, timestamp := ts, order_ref := oref,
        side := if side = "S" then 1 else 0, shares := sh,
        price := pr, misc_data := mid } := by
  have h6 : ts < 256 ^ 6 := lt_of_lt_of_le hts (by norm_num)
  have h8 : oref < 256 ^ 8 := lt_of_lt_of_le ho (by norm_num)
  have h4 : sh < 256 ^ 4 := lt_of_lt_of_le hsh (by norm_num)
  have h4p : pr < 256 ^ 4 := lt_of_lt_of_le hpr (by norm_num)
  have h8m : mid < 256 ^ 8 := lt_of_lt_of_le hm (by norm_num)
  rw [gen_trade]
  simp only [List.append_assoc]
  rw [parse_message_frame' 80 MessageType.TRADE]
  · simp [decode_message, MessageType.val, sliceBE, byteAt_cons_skip,
      byteAt_append_skip, byteAt_cons_zero, pySlice_append_skip,
      pySlice_cons_skip, pySlice_append_here, pySlice_self, to_bytes_length,
      ljust_trunc_length, side_byte_eq,
      from_bytes_to_bytes_lt _ _ h6, from_bytes_to_bytes_lt _ _ h8,
      from_bytes_to_bytes_lt _ _ h4, from_bytes_to_bytes_lt _ _ h4p,
      from_bytes_to_bytes_lt _ _ h8m]
  · decide
  · simp [to_bytes_length, ljust_trunc_length, MSG_LENGTHS]

theorem roundtrip_add_order_mpid (ts oref : Nat) (side : String) (sh : Nat)
    (stock : List Nat) (pr : Nat) (mpid : List Nat)
    (hts : ts < 2 ^ 48) (ho : oref < 2 ^ 64) (hside : side = "B" ∨ side = "S")
    (hsh : sh < 2 ^ 32) (hpr : pr < 2 ^ 32) (hstock : ∀ b ∈ stock, b < 128)
    (hmpid : ∀ b ∈ mpid, b < 128) :
    parse_message (gen_add_order_mpid ts oref side sh stock pr mpid) =
      { valid := true, msg_type := 6, timestamp := ts, order_ref := oref,
        side := if side = "S" then 1 else 0, shares := sh,
        misc_data := from_bytes (ljust_trunc stock 8), price := pr } := by
  have h6 : ts < 256 ^ 6 := lt_of_lt_of_le hts (by norm_num)
  have h8 : oref < 256 ^ 8 := lt_of_lt_of_le ho (by norm_num)
  have h4 : sh < 256 ^ 4 := lt_of_lt_of_le hsh (by norm_num)
  have h4p : pr < 256 ^ 4 := lt_of_lt_of_le hpr (by norm_num)
  rw [gen_add_order_mpid]
  simp only [List.append_assoc]
  rw [parse_message_frame' 70 MessageType.ADD_ORDER_MPID]
  · simp [decode_message, MessageType.val, sliceBE, byteAt_cons_skip,
      byteAt_append_skip, byteAt_cons_zero, pySlice_append_skip,
      pySlice_cons_skip, pySlice_append_here, pySlice_self, to_bytes_length,
      ljust_trunc_length, side_byte_eq,
      from_bytes_to_bytes_lt _ _ h6, from_bytes_to_bytes_lt _ _ h8,
      from_bytes_to_bytes_lt _ _ h4, from_bytes_to_bytes_lt _ _ h4p]
  · decide
  · simp [to_bytes_length, ljust_trunc_length, MSG_LENGTHS]

theorem roundtrip_executed_price (ts oref sh mid : Nat) (printable : Bool)
    (pr : Nat)
    (hts : ts < 2 ^ 48) (ho : oref < 2 ^ 64) (hsh : sh < 2 ^ 32)
    (hm : mid < 2 ^ 64) (hpr : pr < 2 ^ 32) :
    parse_message (gen_executed_price ts oref sh mid printable pr) =
      { valid := true, msg_type := 7, timestamp := ts, order_ref := oref,
        shares := sh, misc_data := mid, price := pr } := by
  have h6 : ts < 256 ^ 6 := lt_of_lt_of_le hts (by norm_num)
  have h8 : oref < 256 ^ 8 := lt_of_lt_of_le ho (by norm_num)
  have h4 : sh < 256 ^ 4 := lt_of_lt_of_le hsh (by norm_num)
  have h8m : mid < 256 ^ 8 := lt_of_lt_of_le hm (by norm_num)
  have h4p : pr < 256 ^ 4 := lt_of_lt_of_le hpr (by norm_num)
  rw [gen_executed_price]
  simp only [List.append_assoc]
  rw [parse_message_frame' 67 MessageType.EXECUTED_PRICE]
  · simp [decode_message, MessageType.val, sliceBE, pySlice_append_skip,
      pySlice_cons_skip, pySlice_append_here, pySlice_self, to_bytes_length,
      from_bytes_to_bytes_lt _ _ h6, from_bytes_to_bytes_lt _ _ h8,
      from_bytes_to_bytes_lt _ _ h4, from_bytes_to_bytes_lt _ _ h8m,
      from_bytes_to_bytes_lt _ _ h4p]
  · decide
  · simp [to_bytes_length, MSG_LENGTHS]

theorem roundtrip_broken_trade (ts mid : Nat)
    (hts : ts < 2 ^ 48) (hm : mid < 2 ^ 64) :
    parse_message (gen_broken_trade ts mid) =
      { valid := true, msg_type := 8, timestamp := ts, misc_data := mid } := by
  have h6 : ts < 256 ^ 6 := lt_of_lt_of_le hts (by norm_num)
  have h8m : mid < 256 ^ 8 := lt_of_lt_of_le hm (by norm_num)
  rw [gen_broken_trade]
  simp only [List.append_assoc]
  rw [parse_message_frame' 66 MessageType.BROKEN_TRADE]
  · simp [decode_message, MessageType.val, sliceBE, pySlice_append_skip,
      pySlice_cons_skip, pySlice_append_here, pySlice_self, to_bytes_length,
      from_bytes_to_bytes_lt _ _ h6, from_bytes_to_bytes_lt _ _ h8m]
  · decide
  · simp [to_bytes_length, MSG_LENGTHS]

/-! ## Streaming lemmas -/

theorem parse_loop_cons (s : ParserState) (b : Nat) (l : List Nat) :
    parse_loop s (b :: l) =
      if ((feed_byte s b).2).valid then (feed_byte s b).2
      else parse_loop (feed_byte s b).1 l := rfl

theorem feed_results_cons (s : ParserState) (b : Nat) (l : List Nat) :
    feed_results s (b :: l) =
      (feed_byte s b).2 :: feed_results (feed_byte s b).1 l := rfl

/-- The feed loop of `parse_message` returns exactly the first valid
result of the per-byte feed stream. -/
theorem parse_loop_eq_find : ∀ (data : List Nat) (s : ParserState),
    parse_loop s data =
      match (feed_results s data).find? (fun r => r.valid) with
      | some r => r
      | none => noMsg := by
  intro data
  induction data with
  | nil => intro s; rfl
  | cons b rest ih =>
      intro s
      rw [parse_loop, feed_results]
      by_cases h : ((feed_byte s b).2).valid
      · simp [h, List.find?_cons_of_pos]
      · simp only [h]
        rw [List.find?_cons_of_neg _ (by simpa using h)]
        simpa using ih (feed_byte s b).1

/-- The per-byte result stream down a partially accumulated frame:
all-invalid results until the final byte, which decodes the buffer. -/
theorem feed_results_frame : ∀ (rest acc : List Nat) (mt : MessageType) (L : Nat),
    1 ≤ acc.length → acc.length + rest.length = L → rest ≠ [] →
    feed_results
      { byte_index := acc.length, msg_type := some mt, msg_length := L,
        buffer := acc } rest
      = List.replicate (rest.length - 1) noMsg ++
          [decode_message mt (acc ++ rest)] := by
  intro rest
  induction rest with
  | nil => intro acc mt L _ _ h3; exact absurd rfl h3
  | cons b rest ih =>
      intro acc mt L h1 h2 _
      have hne : acc.length ≠ 0 := by omega
      rw [feed_results]
      by_cases hc : L ≤ acc.length + 1
      · have hrest : rest = [] := by
          have : rest.length = 0 := by simp at h2; omega
          exact List.length_eq_zero.mp this
        subst hrest
        simp [feed_byte, feed_results, hne, hc, decode_opt]
      · have hrne : rest ≠ [] := by
          have : 0 < rest.length := by simp at h2; omega
          exact List.length_pos.mp this
        have step : feed_byte
            { byte_index := acc.length, msg_type := some mt, msg_length := L,
              buffer := acc } b =
            ({ byte_index := acc.length + 1, msg_type := some mt,
               msg_length := L, buffer := acc ++ [b] }, noMsg) := by
          simp [feed_byte, hne, hc]
        rw [step]
        have hlen : (acc ++ [b]).length = acc.length + 1 := by simp
        have hrec := ih (acc ++ [b]) mt L (by omega) (by simp at h2 ⊢; omega) hrne
        rw [hlen] at hrec
        simp only [hrec]
        have hpos : 0 < rest.length := List.length_pos.mpr hrne
        have hrl : (b :: rest).length - 1 = (rest.length - 1) + 1 := by
          simp
          omega
        rw [hrl, List.replicate_succ, List.append_assoc]
        simp

/-- A valid result ends the feed loop: bytes past the first completed
frame are never examined. -/
theorem parse_loop_append_of_valid :
    ∀ (data : List Nat) (s : ParserState) (extra : List Nat),
      (parse_loop s data).valid = true →
      parse_loop s (data ++ extra) = parse_loop s data := by
  intro data
  induction data with
  | nil =>
      intro s extra h
      rw [parse_loop] at h
      simp [noMsg] at h
  | cons b rest ih =>
      intro s extra h
      rw [parse_loop_cons] at h
      rw [List.cons_append, parse_loop_cons, parse_loop_cons]
      by_cases hv : ((feed_byte s b).2).valid
      · simp only [hv, if_true]
      · simp only [hv, Bool.false_eq_true, if_false] at h ⊢
        exact ih (feed_byte s b).1 extra h

/-- Running the feed loop down a partially accumulated frame with too
few remaining bytes to reach the target length returns the invalid
default. -/
theorem parse_loop_incomplete :
    ∀ (rest acc : List Nat) (mt : MessageType) (L : Nat),
      1 ≤ acc.length → acc.length + rest.length < L →
      parse_loop
        { byte_index := acc.length, msg_type := some mt, msg_length := L,
          buffer := acc } rest = noMsg := by
  intro rest
  induction rest with
  | nil => intro acc mt L _ _; rfl
  | cons b rest ih =>
      intro acc mt L h1 h2
      have hne : acc.length ≠ 0 := by omega
      have hc : ¬ (L ≤ acc.length + 1) := by simp at h2; omega
      have step : feed_byte
          { byte_index := acc.length, msg_type := some mt, msg_length := L,
            buffer := acc } b =
          ({ byte_index := acc.length + 1, msg_type := some mt,
             msg_length := L, buffer := acc ++ [b] }, noMsg) := by
        simp [feed_byte, hne, hc]
      rw [parse_loop_cons, step]
      simp only [noMsg_valid, Bool.false_eq_true, if_false]
      have hrec := ih (acc ++ [b]) mt L (by simp) (by simp at h2 ⊢; omega)
      simpa using hrec

/-- Completion always resets the assembler. -/
theorem feed_byte_valid_resets (s : ParserState) (b : Nat)
    (h : ((feed_byte s b).2).valid = true) : (feed_byte s b).1 = initState := by
  by_cases h0 : s.byte_index = 0
  · cases hmt : MSG_CHAR_TO_TYPE b with
    | none => simp [feed_byte, h0, hmt]
    | some mt =>
        by_cases hc : MSG_LENGTHS mt ≤ 1
        · simp [feed_byte, h0, hmt, hc]
        · simp [feed_byte, h0, hmt, hc, noMsg] at h
  · by_cases hc : s.msg_length ≤ s.byte_index + 1
    · simp [feed_byte, h0, hc]
    · simp [feed_byte, h0, hc, noMsg] at h

/-- An unrecognized tag byte in the idle state resets and rejects. -/
theorem feed_byte_reject (s : ParserState) (b : Nat)
    (h0 : s.byte_index = 0) (hb : MSG_CHAR_TO_TYPE b = none) :
    feed_byte s b = (initState, noMsg) := by
  simp [feed_byte, h0, hb]

/-- A mid-frame byte that does not complete the frame returns the
all-default invalid message. -/
theorem feed_byte_incomplete (s : ParserState) (b : Nat)
    (h0 : s.byte_index ≠ 0) (hc : s.byte_index + 1 < s.msg_length) :
    (feed_byte s b).2 = noMsg := by
  have hc2 : ¬ (s.msg_length ≤ s.byte_index + 1) := by omega
  simp [feed_byte, h0, hc2]

/-! ## Claims -/

/-- C1: for every one of the 9 message kinds and every tuple of field
values fitting their wire widths (timestamp < 2^48, references and
match ids < 2^64, shares and price < 2^32, side in B/S, ASCII stock
and mpid), decoding the generated frame with `parse_message` yields a
valid `ParsedMessage` reproducing every defined field exactly (side S
decodes to Sell = 1, B to Buy = 0; `misc_data` is the big-endian value
of the space-padded stock bytes for AddOrder/AddOrderWithMpid and the
match id for ExecutedOrder/Trade/ExecutedWithPrice/BrokenTrade), all
undefined fields staying at their defaults. -/
theorem c1_encode_decode_roundtrip :
    (∀ oref : Nat, oref < 2 ^ 64 →
      parse_message (gen_delete_order oref) =
        { valid := true, msg_type := 2, order_ref := oref }) ∧
    (∀ (ts oref : Nat) (side : String) (sh : Nat) (stock : List Nat)
        (pr : Nat), ts < 2 ^ 48 → oref < 2 ^ 64 →
        (side = "B" ∨ side = "S") → sh < 2 ^ 32 → pr < 2 ^ 32 →
        (∀ b ∈ stock, b < 128) →
      parse_message (gen_add_order ts oref side sh stock pr) =
        { valid := true, msg_type := 0, timestamp := ts, order_ref := oref,
          side := if side = "S" then 1 else 0, shares := sh,
          misc_data := from_bytes (ljust_trunc stock 8), price := pr }) ∧
    (∀ ts oref sh : Nat, ts < 2 ^ 48 → oref < 2 ^ 64 → sh < 2 ^ 32 →
      parse_message (gen_cancel_order ts oref sh) =
        { valid := true, msg_type := 1, timestamp := ts, order_ref := oref,
          shares := sh }) ∧
    (∀ ts oref sh mid : Nat, ts < 2 ^ 48 → oref < 2 ^ 64 → sh < 2 ^ 32 →
        mid < 2 ^ 64 →
      parse_message (gen_executed_order ts oref sh mid) =
        { valid := true, msg_type := 3, timestamp := ts, order_ref := oref,
          shares := sh, misc_data := mid }) ∧
    (∀ ts oref noref sh : Nat, ts < 2 ^ 48 → oref < 2 ^ 64 →
        noref < 2 ^ 64 → sh < 2 ^ 32 →
      parse_message (gen_replace_order ts oref noref sh) =
        { valid := true, msg_type := 4, timestamp := ts, order_ref := oref,
          new_order_ref := noref, shares := sh }) ∧
    (∀ (ts oref : Nat) (side : String) (sh : Nat) (stock : List Nat)
        (pr mid : Nat), ts < 2 ^ 48 → oref < 2 ^ 64 →
        (side = "B" ∨ side = "S") → sh < 2 ^ 32 → pr < 2 ^ 32 →
        mid < 2 ^ 64 → (∀ b ∈ stock, b < 128) →
      parse_message (gen_trade ts oref side sh stock pr mid) =
        { valid := true, msg_type := 5, timestamp := ts, order_ref := oref,
          side := if side = "S" then 1 else 0, shares := sh,
          price := pr, misc_data := mid }) ∧
    (∀ (ts oref : Nat) (side : String) (sh : Nat) (stock : List Nat)
        (pr : Nat) (mpid : List Nat), ts < 2 ^ 48 → oref < 2 ^ 64 →
        (side = "B" ∨ side = "S") → sh < 2 ^ 32 → pr < 2 ^ 32 →
        (∀ b ∈ stock, b < 128) → (∀ b ∈ mpid, b < 128) →
      parse_message (gen_add_order_mpid ts oref side sh stock pr mpid) =
        { valid := true, msg_type := 6, timestamp := ts, order_ref := oref,
          side := if side = "S" then 1 else 0, shares := sh,
          misc_data := from_bytes (ljust_trunc stock 8), price := pr }) ∧
    (∀ (ts oref sh mid : Nat) (printable : Bool) (pr : Nat),
        ts < 2 ^ 48 → oref < 2 ^ 64 → sh < 2 ^ 32 → mid < 2 ^ 64 →
        pr < 2 ^ 32 →
      parse_message (gen_executed_price ts oref sh mid printable pr) =
        { valid := true, msg_type := 7, timestamp := ts, order_ref := oref,
          shares := sh, misc_data := mid, price := pr }) ∧
    (∀ ts mid : Nat, ts < 2 ^ 48 → mid < 2 ^ 64 →
      parse_message (gen_broken_trade ts mid) =
        { valid := true, msg_type := 8, timestamp := ts, misc_data := mid }) :=
  ⟨fun oref h => roundtrip_delete_order oref h,
   fun ts oref side sh stock pr h1 h2 h3 h4 h5 h6 =>
     roundtrip_add_order ts oref side sh stock pr h1 h2 h3 h4 h5 h6,
   fun ts oref sh h1 h2 h3 => roundtrip_cancel_order ts oref sh h1 h2 h3,
   fun ts oref sh mid h1 h2 h3 h4 =>
     roundtrip_executed_order ts oref sh mid h1 h2 h3 h4,
   fun ts oref noref sh h1 h2 h3 h4 =>
     roundtrip_replace_order ts oref noref sh h1 h2 h3 h4,
   fun ts oref side sh stock pr mid h1 h2 h3 h4 h5 h6 h7 =>
     roundtrip_trade ts oref side sh stock pr mid h1 h2 h3 h4 h5 h6 h7,
   fun ts oref side sh stock pr mpid h1 h2 h3 h4 h5 h6 h7 =>
     roundtrip_add_order_mpid ts oref side sh stock pr mpid h1 h2 h3 h4 h5 h6 h7,
   fun ts oref sh mid printable pr h1 h2 h3 h4 h5 =>
     roundtrip_executed_price ts oref sh mid printable pr h1 h2 h3 h4 h5,
   fun ts mid h1 h2 => roundtrip_broken_trade ts mid h1 h2⟩

/-- Witness for C1: each of the nine round trips at concrete field
values. -/
theorem c1_encode_decode_roundtrip_witness :
    parse_message (gen_delete_order 72623859790382856) =
      { valid := true, msg_type := 2, order_ref := 72623859790382856 } ∧
    parse_message (gen_add_order 4328719365 1234605616436508552 "B" 1000
        [65, 80, 80, 76] 100000) =
      { valid := true, msg_type := 0, timestamp := 4328719365,
        order_ref := 1234605616436508552,
        side := if ("B" : String) = "S" then 1 else 0, shares := 1000,
        misc_data := from_bytes (ljust_trunc [65, 80, 80, 76] 8),
        price := 100000 } ∧
    parse_message (gen_cancel_order 1 12302652060662213649 500) =
      { valid := true, msg_type := 1, timestamp := 1,
        order_ref := 12302652060662213649, shares := 500 } ∧
    parse_message (gen_executed_order 4660 1230066625199609924 250
        16045690981097406464) =
      { valid := true, msg_type := 3, timestamp := 4660,
        order_ref := 1230066625199609924, shares := 250,
        misc_data := 16045690981097406464 } ∧
    parse_message (gen_replace_order 22136 1 2 750) =
      { valid := true, msg_type := 4, timestamp := 22136, order_ref := 1,
        new_order_ref := 2, shares := 750 } ∧
    parse_message (gen_trade 39612 6148996765713866888 "S" 100
        [77, 83, 70, 84] 350000 1311768467294899695) =
      { valid := true, msg_type := 5, timestamp := 39612,
        order_ref := 6148996765713866888,
        side := if ("S" : String) = "S" then 1 else 0, shares := 100,
        price := 350000, misc_data := 1311768467294899695 } ∧
    parse_message (gen_add_order_mpid 57005 12297848147757817821 "B" 2000
        [71, 79, 79, 71, 76] 150000 [65, 66, 67, 68]) =
      { valid := true, msg_type := 6, timestamp := 57005,
        order_ref := 12297848147757817821,
        side := if ("B" : String) = "S" then 1 else 0, shares := 2000,
        misc_data := from_bytes (ljust_trunc [71, 79, 79, 71, 76] 8),
        price := 150000 } ∧
    parse_message (gen_executed_price 48879 11068046451097524838 50
        18364757930599072545 true 123456) =
      { valid := true, msg_type := 7, timestamp := 48879,
        order_ref := 11068046451097524838, shares := 50,
        misc_data := 18364757930599072545, price := 123456 } ∧
    parse_message (gen_broken_trade 51966 81985529216486895) =
      { valid := true, msg_type := 8, timestamp := 51966,
        misc_data := 81985529216486895 } :=
  ⟨c1_encode_decode_roundtrip.1 _ (by norm_num),
   c1_encode_decode_roundtrip.2.1 _ _ _ _ _ _ (by norm_num) (by norm_num)
     (Or.inl rfl) (by norm_num) (by norm_num) (by decide),
   c1_encode_decode_roundtrip.2.2.1 _ _ _ (by norm_num) (by norm_num)
     (by norm_num),
   c1_encode_decode_roundtrip.2.2.2.1 _ _ _ _ (by norm_num) (by norm_num)
     (by norm_num) (by norm_num),
   c1_encode_decode_roundtrip.2.2.2.2.1 _ _ _ _ (by norm_num) (by norm_num)
     (by norm_num) (by norm_num),
   c1_encode_decode_roundtrip.2.2.2.2.2.1 _ _ _ _ _ _ _ (by norm_num)
     (by norm_num) (Or.inr rfl) (by norm_num) (by norm_num) (by norm_num)
     (by decide),
   c1_encode_decode_roundtrip.2.2.2.2.2.2.1 _ _ _ _ _ _ _ (by norm_num)
     (by norm_num) (Or.inl rfl) (by norm_num) (by norm_num) (by decide)
     (by decide),
   c1_encode_decode_roundtrip.2.2.2.2.2.2.2.1 _ _ _ _ _ _ (by norm_num)
     (by norm_num) (by norm_num) (by norm_num) (by norm_num),
   c1_encode_decode_roundtrip.2.2.2.2.2.2.2.2 _ _ (by norm_num)
     (by norm_num)⟩

/-- C2 counterexample: the claim asserts pairwise distinct frame
lengths, but AddOrder and ExecutedWithPrice are distinct kinds with the
same registered length 36. -/
theorem c2_registry_counterexample :
    MessageType.ADD_ORDER ≠ MessageType.EXECUTED_PRICE ∧
    MSG_LENGTHS MessageType.ADD_ORDER = MSG_LENGTHS MessageType.EXECUTED_PRICE := by
  decide

/-- C2 amended: tags are unique per kind and the lookup accepts no tag
byte outside the 9 defined ones, but the frame lengths are not pairwise
distinct: AddOrder and ExecutedWithPrice share 36, and Trade and
AddOrderWithMpid share 40. -/
theorem c2_registry_amended :
    (∀ mt : MessageType, MSG_CHAR_TO_TYPE (tagOf mt) = some mt) ∧
    (∀ m1 m2 : MessageType, m1 ≠ m2 → tagOf m1 ≠ tagOf m2) ∧
    (∀ b : Nat, (∀ mt : MessageType, b ≠ tagOf mt) →
      MSG_CHAR_TO_TYPE b = none) ∧
    MSG_LENGTHS MessageType.ADD_ORDER = MSG_LENGTHS MessageType.EXECUTED_PRICE ∧
    MSG_LENGTHS MessageType.TRADE = MSG_LENGTHS MessageType.ADD_ORDER_MPID := by
  refine ⟨by decide, by decide, ?_, by decide, by decide⟩
  intro b hb
  have h1 : b ≠ 65 := by simpa [tagOf] using hb MessageType.ADD_ORDER
  have h2 : b ≠ 88 := by simpa [tagOf] using hb MessageType.CANCEL_ORDER
  have h3 : b ≠ 68 := by simpa [tagOf] using hb MessageType.DELETE_ORDER
  have h4 : b ≠ 69 := by simpa [tagOf] using hb MessageType.EXECUTED_ORDER
  have h5 : b ≠ 85 := by simpa [tagOf] using hb MessageType.REPLACE_ORDER
  have h6 : b ≠ 80 := by simpa [tagOf] using hb MessageType.TRADE
  have h7 : b ≠ 70 := by simpa [tagOf] using hb MessageType.ADD_ORDER_MPID
  have h8 : b ≠ 67 := by simpa [tagOf] using hb MessageType.EXECUTED_PRICE
  have h9 : b ≠ 66 := by simpa [tagOf] using hb MessageType.BROKEN_TRADE
  simp [MSG_CHAR_TO_TYPE, h1, h2, h3, h4, h5, h6, h7, h8, h9]

/-- Witness for the amended C2: two concrete distinct kinds have
distinct tags, and the unlisted byte 0x5A is not accepted. -/
theorem c2_registry_amended_witness :
    tagOf MessageType.ADD_ORDER ≠ tagOf MessageType.TRADE ∧
    MSG_CHAR_TO_TYPE 90 = none :=
  ⟨c2_registry_amended.2.1 MessageType.ADD_ORDER MessageType.TRADE (by decide),
   c2_registry_amended.2.2.1 90 (by decide)⟩

/-- C3: for every byte sequence, the first valid result of feeding the
bytes one at a time into a freshly reset parser equals the result of
`parse_message` on the same bytes, and if no per-byte result is valid,
`parse_message` returns an invalid result. -/
theorem c3_feed_refines_parse (data : List Nat) :
    (∀ r : ParsedMessage,
      (feed_results initState data).find? (fun m => m.valid) = some r →
      parse_message data = r) ∧
    ((feed_results initState data).find? (fun m => m.valid) = none →
      (parse_message data).valid = false) := by
  have h := parse_loop_eq_find data initState
  constructor
  · intro r hr
    rw [parse_message, h, hr]
  · intro hr
    rw [parse_message, h, hr]
    rfl

/-- Witness for C3: a DeleteOrder frame fed byte-by-byte has its first
valid result equal to `parse_message` of the frame. -/
theorem c3_feed_refines_parse_witness :
    (feed_results initState [68, 0, 0, 0, 0, 0, 0, 0, 5]).find?
        (fun m => m.valid) =
      some { valid := true, msg_type := 2, order_ref := 5 } ∧
    parse_message [68, 0, 0, 0, 0, 0, 0, 0, 5] =
      { valid := true, msg_type := 2, order_ref := 5 } :=
  ⟨by decide,
   (c3_feed_refines_parse [68, 0, 0, 0, 0, 0, 0, 0, 5]).1 _ (by decide)⟩

/-- C4: an unrecognized tag byte fed in the idle state consumes exactly
that byte, resets the assembler to the initial state and returns an
invalid result; a valid frame appended right after it is then decoded
as the single valid result, with no state carried over. -/
theorem c4_reject_then_clean_frame (b t : Nat) (mt : MessageType)
    (rest : List Nat)
    (hb : MSG_CHAR_TO_TYPE b = none) (ht : MSG_CHAR_TO_TYPE t = some mt)
    (hlen : 1 + rest.length = MSG_LENGTHS mt) :
    feed_byte initState b = (initState, noMsg) ∧
    noMsg.valid = false ∧
    feed_results initState (b :: t :: rest) =
      noMsg :: noMsg :: (List.replicate (rest.length - 1) noMsg ++
        [decode_message mt (t :: rest)]) ∧
    (decode_message mt (t :: rest)).valid = true := by
  have h9 := msg_lengths_ge mt
  have hreject := feed_byte_reject initState b rfl hb
  refine ⟨hreject, rfl, ?_, decode_valid mt (t :: rest)⟩
  rw [feed_results_cons, hreject]
  have hnc : ¬ (MSG_LENGTHS mt ≤ 0 + 1) := by omega
  have step : feed_byte initState t =
      ({ byte_index := 1, msg_type := some mt, msg_length := MSG_LENGTHS mt,
         buffer := [t] }, noMsg) := by
    simp [feed_byte, initState, ht, hnc]
  rw [feed_results_cons, step]
  have hrne : rest ≠ [] := by
    have : 0 < rest.length := by omega
    exact List.length_pos.mp this
  have hfr := feed_results_frame rest [t] mt (MSG_LENGTHS mt) (by simp)
    (by simp; omega) hrne
  simp only [List.length_cons, List.length_nil] at hfr
  rw [hfr]
  rfl

/-- Witness for C4: the byte 0x5A ('Z') rejected, then a DeleteOrder
frame decoded as the single valid result. -/
theorem c4_reject_then_clean_frame_witness :
    feed_byte initState 90 = (initState, noMsg) ∧
    noMsg.valid = false ∧
    feed_results initState
        (90 :: 68 :: [1, 2, 3, 4, 5, 6, 7, 8]) =
      noMsg :: noMsg :: (List.replicate 7 noMsg ++
        [decode_message MessageType.DELETE_ORDER
          (68 :: [1, 2, 3, 4, 5, 6, 7, 8])]) ∧
    (decode_message MessageType.DELETE_ORDER
      (68 :: [1, 2, 3, 4, 5, 6, 7, 8])).valid = true :=
  c4_reject_then_clean_frame 90 68 MessageType.DELETE_ORDER
    [1, 2, 3, 4, 5, 6, 7, 8] (by decide) (by decide) (by decide)

/-- C5: every generator's output length equals the Type Registry length
of its kind (AddOrder 36, CancelOrder 23, DeleteOrder 9, ExecutedOrder
30, ReplaceOrder 27, Trade 40, AddOrderWithMpid 40, ExecutedWithPrice
36, BrokenTrade 19) for all in-range field values. -/
theorem c5_encoder_lengths (ts oref noref sh pr mid : Nat) (side : String)
    (stock mpid : List Nat) (printable : Bool)
    (hts : ts < 2 ^ 48) (ho : oref < 2 ^ 64) (hn : noref < 2 ^ 64)
    (hsh : sh < 2 ^ 32) (hpr : pr < 2 ^ 32) (hm : mid < 2 ^ 64)
    (hstock : ∀ b ∈ stock, b < 128) (hmpid : ∀ b ∈ mpid, b < 128) :
    (gen_add_order ts oref side sh stock pr).length =
      MSG_LENGTHS MessageType.ADD_ORDER ∧
    (gen_cancel_order ts oref sh).length =
      MSG_LENGTHS MessageType.CANCEL_ORDER ∧
    (gen_delete_order oref).length = MSG_LENGTHS MessageType.DELETE_ORDER ∧
    (gen_executed_order ts oref sh mid).length =
      MSG_LENGTHS MessageType.EXECUTED_ORDER ∧
    (gen_replace_order ts oref noref sh).length =
      MSG_LENGTHS MessageType.REPLACE_ORDER ∧
    (gen_trade ts oref side sh stock pr mid).length =
      MSG_LENGTHS MessageType.TRADE ∧
    (gen_add_order_mpid ts oref side sh stock pr mpid).length =
      MSG_LENGTHS MessageType.ADD_ORDER_MPID ∧
    (gen_executed_price ts oref sh mid printable pr).length =
      MSG_LENGTHS MessageType.EXECUTED_PRICE ∧
    (gen_broken_trade ts mid).length = MSG_LENGTHS MessageType.BROKEN_TRADE := by
  refine ⟨?_, ?_, ?_, ?_, ?_, ?_, ?_, ?_, ?_⟩ <;>
    simp [gen_add_order, gen_cancel_order, gen_delete_order,
      gen_executed_order, gen_replace_order, gen_trade, gen_add_order_mpid,
      gen_executed_price, gen_broken_trade, to_bytes_length,
      ljust_trunc_length, MSG_LENGTHS]

/-- Witness for C5: the nine generator lengths at concrete field
values. -/
theorem c5_encoder_lengths_witness :
    (gen_add_order 1 2 "B" 3 [65] 4).length =
      MSG_LENGTHS MessageType.ADD_ORDER ∧
    (gen_cancel_order 1 2 3).length = MSG_LENGTHS MessageType.CANCEL_ORDER ∧
    (gen_delete_order 2).length = MSG_LENGTHS MessageType.DELETE_ORDER ∧
    (gen_executed_order 1 2 3 5).length =
      MSG_LENGTHS MessageType.EXECUTED_ORDER ∧
    (gen_replace_order 1 2 6 3).length =
      MSG_LENGTHS MessageType.REPLACE_ORDER ∧
    (gen_trade 1 2 "B" 3 [65] 4 5).length = MSG_LENGTHS MessageType.TRADE ∧
    (gen_add_order_mpid 1 2 "B" 3 [65] 4 [66]).length =
      MSG_LENGTHS MessageType.ADD_ORDER_MPID ∧
    (gen_executed_price 1 2 3 5 true 4).length =
      MSG_LENGTHS MessageType.EXECUTED_PRICE ∧
    (gen_broken_trade 1 5).length = MSG_LENGTHS MessageType.BROKEN_TRADE :=
  c5_encoder_lengths 1 2 6 3 4 5 "B" [65] [66] true (by norm_num)
    (by norm_num) (by norm_num) (by norm_num) (by norm_num) (by norm_num)
    (by decide) (by decide)

/-- C6: for the three kinds that define a side field, the decoder maps
the byte at offset 15 uniformly: 0x53 ('S') to Sell (1) and every other
byte, 0x42 ('B') included, to Buy (0), and the frame is never rejected
for an unexpected side byte. -/
theorem c6_side_decoding (buf : List Nat) (mt : MessageType)
    (h : mt = MessageType.ADD_ORDER ∨ mt = MessageType.TRADE ∨
      mt = MessageType.ADD_ORDER_MPID) :
    (decode_message mt buf).side =
      (if byteAt buf 15 = 83 then 1 else 0) ∧
    (decode_message mt buf).valid = true := by
  rcases h with h | h | h <;> subst h <;> exact ⟨rfl, rfl⟩

/-- Witness for C6: an AddOrder buffer whose side byte is 0x42 ('B')
decodes to Buy and stays valid. -/
theorem c6_side_decoding_witness :
    (decode_message MessageType.ADD_ORDER (List.replicate 36 66)).side =
      (if byteAt (List.replicate 36 66) 15 = 83 then 1 else 0) ∧
    (decode_message MessageType.ADD_ORDER (List.replicate 36 66)).valid =
      true :=
  c6_side_decoding (List.replicate 36 66) MessageType.ADD_ORDER (Or.inl rfl)

/-- C7: concrete scenarios. `gen_delete_order 0x0102030405060708` is
exactly the 9 bytes 44 01 02 03 04 05 06 07 08 and parses to a valid
DeleteOrder with that order_ref; the 19-byte BrokenTrade frame for
timestamp 0xCAFE and match id 0x0123456789ABCDEF parses to a valid
BrokenTrade with `misc_data` the match id, the timestamp read from
bytes 1..6, and order_ref left at its default 0. -/
theorem c7_concrete_scenarios :
    gen_delete_order 0x0102030405060708 =
      [0x44, 0x01, 0x02, 0x03, 0x04, 0x05, 0x06, 0x07, 0x08] ∧
    parse_message (gen_delete_order 0x0102030405060708) =
      { valid := true, msg_type := 2, order_ref := 0x0102030405060708 } ∧
    (gen_broken_trade 0xCAFE 0x0123456789ABCDEF).length = 19 ∧
    parse_message (gen_broken_trade 0xCAFE 0x0123456789ABCDEF) =
      { valid := true, msg_type := 8, timestamp := 0xCAFE,
        misc_data := 0x0123456789ABCDEF, order_ref := 0 } := by
  refine ⟨by decide, by decide, by decide, by decide⟩

/-- C8: `parse_message` starts from the reset state, returns an invalid
result whenever the input is exhausted before any frame completes —
empty input, a started frame cut short of its target length, and in
general any input none of whose per-byte feed results is valid — and
returns the result of the first completed frame without examining later
bytes. -/
theorem c8_parse_message_behavior :
    parse_message [] = noMsg ∧
    noMsg.valid = false ∧
    (∀ (t : Nat) (mt : MessageType) (rest : List Nat),
      MSG_CHAR_TO_TYPE t = some mt → 1 + rest.length < MSG_LENGTHS mt →
      parse_message (t :: rest) = noMsg) ∧
    (∀ data : List Nat,
      (feed_results initState data).find? (fun m => m.valid) = none →
      parse_message data = noMsg) ∧
    (∀ data extra : List Nat, (parse_message data).valid = true →
      parse_message (data ++ extra) = parse_message data) := by
  refine ⟨rfl, rfl, ?_, ?_, ?_⟩
  · intro t mt rest ht hlen
    have hnc : ¬ (MSG_LENGTHS mt ≤ 0 + 1) := by omega
    rw [parse_message, parse_loop_cons]
    have step : feed_byte initState t =
        ({ byte_index := 1, msg_type := some mt,
           msg_length := MSG_LENGTHS mt, buffer := [t] }, noMsg) := by
      simp [feed_byte, initState, ht, hnc]
    rw [step]
    simp only [noMsg_valid, Bool.false_eq_true, if_false]
    have := parse_loop_incomplete rest [t] mt (MSG_LENGTHS mt) (by simp)
      (by simp; omega)
    simpa using this
  · intro data hfind
    rw [parse_message, parse_loop_eq_find data initState, hfind]
  · intro data extra h
    exact parse_loop_append_of_valid data initState extra h

/-- Witness for C8: a DeleteOrder frame cut short after 3 of its 9
bytes parses as invalid, a lone rejected byte (no valid feed result)
parses as invalid, and bytes appended after a complete DeleteOrder
frame do not change the result. -/
theorem c8_parse_message_behavior_witness :
    parse_message [68, 1, 2] = noMsg ∧
    parse_message [90] = noMsg ∧
    parse_message ([68, 1, 2, 3, 4, 5, 6, 7, 8] ++ [90, 91, 92]) =
      parse_message [68, 1, 2, 3, 4, 5, 6, 7, 8] :=
  ⟨c8_parse_message_behavior.2.2.1 68 MessageType.DELETE_ORDER [1, 2]
     (by decide) (by decide),
   c8_parse_message_behavior.2.2.2.1 [90] (by decide),
   c8_parse_message_behavior.2.2.2.2 [68, 1, 2, 3, 4, 5, 6, 7, 8]
     [90, 91, 92] (by decide)⟩

/-- C9: the assembler state equals the initial state after
construction, after every `feed_byte` call that completes a frame, and
after every `feed_byte` call that rejects an unrecognized first byte. -/
theorem c9_lifecycle_invariant :
    initState =
      { byte_index := 0, msg_type := none, msg_length := 0, buffer := [] } ∧
    (∀ (s : ParserState) (b : Nat), ((feed_byte s b).2).valid = true →
      (feed_byte s b).1 = initState) ∧
    (∀ (s : ParserState) (b : Nat), s.byte_index = 0 →
      MSG_CHAR_TO_TYPE b = none → (feed_byte s b).1 = initState) := by
  refine ⟨rfl, fun s b h => feed_byte_valid_resets s b h, ?_⟩
  intro s b h0 hb
  rw [feed_byte_reject s b h0 hb]

/-- Witness for C9: a completing DeleteOrder byte and a rejected byte
both leave the assembler in the initial state. -/
theorem c9_lifecycle_invariant_witness :
    (feed_byte
      { byte_index := 8, msg_type := some MessageType.DELETE_ORDER,
        msg_length := 9, buffer := [68, 1, 2, 3, 4, 5, 6, 7] } 8).1 =
      initState ∧
    (feed_byte initState 90).1 = initState :=
  ⟨c9_lifecycle_invariant.2.1 _ 8 (by decide),
   c9_lifecycle_invariant.2.2 initState 90 rfl (by decide)⟩

/-- C10: the value returned by `feed_byte` cannot distinguish a
rejection from mid-frame accumulation: both return the all-default
invalid `ParsedMessage`. -/
theorem c10_reject_incomplete_indistinguishable :
    (∀ b : Nat, MSG_CHAR_TO_TYPE b = none →
      (feed_byte initState b).2 = noMsg) ∧
    (∀ (s : ParserState) (b : Nat), s.byte_index ≠ 0 →
      s.byte_index + 1 < s.msg_length → (feed_byte s b).2 = noMsg) ∧
    noMsg = { valid := false, msg_type := 0, order_ref := 0, side := 0,
              shares := 0, price := 0, new_order_ref := 0, timestamp := 0,
              misc_data := 0 } := by
  refine ⟨?_, fun s b h0 hc => feed_byte_incomplete s b h0 hc, rfl⟩
  intro b hb
  rw [feed_byte_reject initState b rfl hb]

/-- Witness for C10: the rejected byte 0x5A and a mid-frame byte both
return the same all-default record. -/
theorem c10_reject_incomplete_indistinguishable_witness :
    (feed_byte initState 90).2 = noMsg ∧
    (feed_byte
      { byte_index := 1, msg_type := some MessageType.DELETE_ORDER,
        msg_length := 9, buffer := [68] } 7).2 = noMsg :=
  ⟨c10_reject_incomplete_indistinguishable.1 90 (by decide),
   c10_reject_incomplete_indistinguishable.2.1 _ 7 (by decide) (by decide)⟩

end ITCH
